import Mathlib

/-!
Verification of the twitter-to-telegram relay bot (src/main.py) against its
natural-language specification.

The embedding is shallow: every pure fragment of main.py becomes a Lean
function over explicit data, the poll loop becomes explicit state passing
over a cache (the per-account last-tweet-id marker map), and the external
collaborators (snscrape fetch, the Telegram Bot API, the filesystem) are
oracles passed in as function arguments.  Telegram Bot API invocations are
recorded as a trace of `SendEvent` values: the trace lists the bot calls the
code attempts, in program order.  Exceptions are modelled with `Except`
exactly where main.py lets them propagate; the try/except blocks of main.py
correspond to the points where an `Except.error` is consumed.
-/

/-! ### ASCII string primitives

main.py relies on Python str methods (`lower`, `strip`, `startswith`,
`endswith`, `find`, `int()`).  The Lean core versions of these do not reduce
in the kernel, so the embedding defines structural versions over `List Char`
(faithful to Python on the ASCII inputs the program manipulates). -/

/-- Model of Python `str.lower` for one ASCII character. -/
def charLower (c : Char) : Char :=
  if 65 ≤ c.toNat ∧ c.toNat ≤ 90 then Char.ofNat (c.toNat + 32) else c

/-- Model of Python `str.lower` (ASCII). -/
def strToLower (s : String) : String := ⟨s.data.map charLower⟩

/-- Whether the first list is an initial segment of the second. -/
def startsWithL : List Char → List Char → Bool
  | [], _ => true
  | _ :: _, [] => false
  | p :: ps, c :: cs => p == c && startsWithL ps cs

/-- Model of Python `str.startswith`. -/
def strStartsWith (s pre : String) : Bool := startsWithL pre.data s.data

/-- Model of Python `str.endswith`. -/
def strEndsWith (s suf : String) : Bool := startsWithL suf.data.reverse s.data.reverse

/-- Whether `pat` occurs as a contiguous sublist. -/
def containsSubL (pat : List Char) : List Char → Bool
  | [] => startsWithL pat []
  | c :: cs => startsWithL pat (c :: cs) || containsSubL pat cs

/-- Model of Python `str.find(pat) != -1` (substring occurrence). -/
def strContainsSub (s pat : String) : Bool := containsSubL pat.data s.data

/-- Python whitespace characters stripped by `str.strip()`. -/
def isSpaceChar (c : Char) : Bool :=
  c == ' ' || c == '\t' || c == '\n' || c == '\r' || c == '\x0b' || c == '\x0c'

/-- Model of Python `str.strip()`. -/
def strTrim (s : String) : String :=
  ⟨((s.data.dropWhile isSpaceChar).reverse.dropWhile isSpaceChar).reverse⟩

/-- Decimal digit value of an ASCII character, if it is a digit. -/
def digitVal? (c : Char) : Option Nat :=
  if 48 ≤ c.toNat ∧ c.toNat ≤ 57 then some (c.toNat - 48) else none

/-- Accumulating decimal parser over a character list; fails on a non-digit. -/
def digitsToNatAux (acc : Nat) : List Char → Option Nat
  | [] => some acc
  | c :: cs =>
    match digitVal? c with
    | some d => digitsToNatAux (acc * 10 + d) cs
    | none => none

/-- Model of Python `int(s)` on decimal strings: surrounding whitespace is
ignored, an optional sign is allowed, and anything else raises `ValueError`
(here: `none`). -/
def parsePyInt (s : String) : Option Int :=
  match (strTrim s).data with
  | [] => none
  | '-' :: rest =>
    match rest with
    | [] => none
    | _ :: _ => (digitsToNatAux 0 rest).map (fun n => -(n : Int))
  | '+' :: rest =>
    match rest with
    | [] => none
    | _ :: _ => (digitsToNatAux 0 rest).map (fun n => (n : Int))
  | cs => (digitsToNatAux 0 cs).map (fun n => (n : Int))

/-! ### Data model -/

/-- The `config` dict of main.py (lines 36-41): watch-list, poll interval in
minutes, optional destination channel, pause flag. -/
structure Config where
  twitter_accounts : List String
  interval_minutes : Int
  telegram_channel : Option String
  paused : Bool
deriving DecidableEq

/-- The `cache` dict of main.py (line 42): an insertion-ordered mapping from
account name to the id string of the last handled tweet. -/
abbrev Cache := List (String × String)

/-- Python `cache.get(acc)`: `None` when the key is absent. -/
def cacheGet : Cache → String → Option String
  | [], _ => none
  | (k, v) :: rest, a => if k == a then some v else cacheGet rest a

/-- Python `cache[acc] = tid`: in-place update preserving insertion order,
appending when the key is new. -/
def cacheSet : Cache → String → String → Cache
  | [], a, v => [(a, v)]
  | (k, w) :: rest, a, v =>
    if k == a then (a, v) :: rest else (k, w) :: cacheSet rest a v

/-- One media element of a snscrape tweet, as probed by
`extract_media_from_tweet` (lines 108-126).  An attribute that is absent or
`None` is `none`; a present attribute holds its string (possibly empty, which
Python treats as falsy).  `className` is `m.__class__.__name__` and
`typeAttr` is `getattr(m, "type", "")`. -/
structure MediaElem where
  fullUrl : Option String
  previewUrl : Option String
  url : Option String
  className : String
  typeAttr : String
deriving DecidableEq

/-- One entry of the list returned by `extract_media_from_tweet`: the dict
`{"type": mtype, "url": url}`. -/
structure MediaDict where
  mtype : String
  url : String
deriving DecidableEq

/-- A snscrape tweet as consumed by the loop: `id` (an integer or absent,
line 142 applies `str(getattr(tweet, "id", None))`), `content` (line 146) and
the optional `media` attribute (line 108). -/
structure Tweet where
  id : Option Int
  content : String
  media : Option (List MediaElem)
deriving DecidableEq

/-- Line 142: `tid = str(getattr(tweet, "id", None))`; `str(None)` is the
string `"None"`. -/
def tidStr (t : Tweet) : String :=
  match t.id with
  | some n => toString n
  | none => "None"

/-- One attempted Telegram Bot API call.  `sendMediaGroup` carries the list
of `InputMediaPhoto` items as pairs of url and optional caption. -/
inductive SendEvent where
  | sendMessage (channel : Option String) (text : String)
  | sendPhoto (channel : Option String) (url : String) (caption : String)
  | sendMediaGroup (channel : Option String) (items : List (String × Option String))
  | sendVideo (channel : Option String) (url : String)
deriving DecidableEq

/-! ### Media normalizer (lines 101-128) -/

/-- Python truthiness of an optional string attribute, as in
`hasattr(m, "fullUrl") and m.fullUrl`: present and non-empty. -/
def hasTruthy : Option String → Bool
  | some s => !(s == "")
  | none => false

/-- Lines 111-118: the if/elif chain resolving a media URL from `fullUrl`,
then `previewUrl`, then `url`. -/
def resolveUrl (m : MediaElem) : Option String :=
  if hasTruthy m.fullUrl then m.fullUrl
  else if hasTruthy m.previewUrl then m.previewUrl
  else if hasTruthy m.url then m.url
  else none

/-- Line 120: `m.__class__.__name__.lower().find("video") != -1 or
getattr(m, "type", "") == "video"`. -/
def explicit_video_signal (m : MediaElem) : Bool :=
  strContainsSub (strToLower m.className) "video" || m.typeAttr == "video"

/-- Line 124: does the lowercased URL end in one of the video extensions. -/
def hasVideoExt (url : String) : Bool :=
  [".mp4", ".mov", ".webm"].any (fun ext => strEndsWith (strToLower url) ext)

/-- Lines 112-125: the final `mtype` for an element whose URL resolved: the
default is "photo", the explicit signal sets "video" (line 120-121), and the
extension fallback overrides to "video" (lines 123-125). -/
def mediaType (m : MediaElem) (url : String) : String :=
  let mtype := if explicit_video_signal m then "video" else "photo"
  if hasVideoExt url then "video" else mtype

/-- Lines 109-126: the loop body of `extract_media_from_tweet` over the
elements of `tweet.media`; an element is appended only when its URL
resolves. -/
def extractMediaLoop : List MediaElem → List MediaDict
  | [] => []
  | m :: rest =>
    match resolveUrl m with
    | some url => ⟨mediaType m url, url⟩ :: extractMediaLoop rest
    | none => extractMediaLoop rest

/-- Lines 101-128: `extract_media_from_tweet`.  `getattr(tweet, "media",
None)` is falsy when the attribute is absent, `None` or the empty list; the
result is then the empty `media_list`. -/
def extract_media_from_tweet (tweet_media : Option (List MediaElem)) : List MediaDict :=
  match tweet_media with
  | none => []
  | some ms => extractMediaLoop ms

/-! ### Delivery gateway (lines 47-89)

`send_text` and `send_media` wrap every Bot API call in try/except, so they
never propagate a transport failure; their value in the embedding is the
trace of calls their bodies issue in program order. -/

/-- Lines 47-51: `send_text` issues exactly one `bot.send_message` call (a
failure of that call is caught and logged inside the function). -/
def send_text (channel : Option String) (text : String) : List SendEvent :=
  [SendEvent.sendMessage channel text]

/-- Lines 70-72: `[InputMediaPhoto(p) for p in photos]` followed by
`media_group[0].caption = caption` — every item uncaptioned except the
first. -/
def buildMediaGroup (photos : List String) (caption : String) : List (String × Option String) :=
  match photos.map (fun p => (p, (none : Option String))) with
  | [] => []
  | (p, _) :: rest => (p, some caption) :: rest

/-- Lines 53-82: the sequence of Bot API calls `send_media` issues when no
call raises: the photo handling (single photo with caption, or one media
group), then one `send_video` per video, then the text fallback when both
filtered lists are empty and the caption is non-empty. -/
def send_media (channel : Option String) (media_urls : List MediaDict) (caption : String) : List SendEvent :=
  if media_urls.isEmpty then
    if caption == "" then [] else send_text channel caption
  else
    let photos := (media_urls.filter (fun m => m.mtype == "photo")).map (fun m => m.url)
    let videos := (media_urls.filter (fun m => m.mtype == "video")).map (fun m => m.url)
    let photoCalls :=
      match photos with
      | [] => []
      | [p] => [SendEvent.sendPhoto channel p caption]
      | ps => [SendEvent.sendMediaGroup channel (buildMediaGroup ps caption)]
    let videoCalls := videos.map (fun v => SendEvent.sendVideo channel v)
    let textCalls :=
      if photos.isEmpty && videos.isEmpty && !(caption == "") then send_text channel caption
      else []
    photoCalls ++ videoCalls ++ textCalls

/-- Lines 84-89: `send_to_channel_text_only` reads the configured channel and
skips (issuing no Bot API call) when it is falsy — `None` or empty. -/
def send_to_channel_text_only (channel : Option String) (text : String) : List SendEvent :=
  match channel with
  | none => []
  | some ch => if ch == "" then [] else send_text (some ch) text

/-- A transport failure inside the try block of `send_media` (or around a
single call) aborts the calls that follow it; the exception is then caught.
`failAt = some k` means the call at index k raises: the calls up to and
including it were attempted.  `failAt = none` means every call succeeds. -/
def attempted (failAt : Option Nat) (calls : List SendEvent) : List SendEvent :=
  match failAt with
  | none => calls
  | some k => calls.take (k + 1)

/-! ### Change detector / poll loop (lines 130-159) -/

/-- Lines 146-148: the caption built for a new tweet; `text` here is the
already stripped content, and the empty string is falsy. -/
def tweet_caption (acc text : String) : String :=
  if text == "" then "🧵 New tweet from " ++ acc
  else "🧵 New tweet from " ++ acc ++ ":\n\n" ++ text

/-- Lines 146-154: the Bot API calls the new-tweet branch issues for account
`acc` and tweet `t` on channel `channel` when no call raises:
`send_media` when the extracted media list is truthy, else `send_text`. -/
def delivery_calls (channel : Option String) (acc : String) (t : Tweet) : List SendEvent :=
  let text := strTrim t.content
  let caption := tweet_caption acc text
  let media := extract_media_from_tweet t.media
  if media.isEmpty then send_text channel caption
  else send_media channel media caption

/-- Result of processing accounts within one cycle: the in-memory cache, the
trace of attempted Bot API calls, the cache snapshots successfully written by
`save_json`, and which accounts had their loop body entered. -/
structure AccountOutcome where
  cache : Cache
  events : List SendEvent
  saves : List Cache
deriving DecidableEq

/-- Lines 139-156: the per-account body of the polling loop.  `fetch` is
`get_latest_tweet_sync` (which swallows its own exceptions and yields `None`
on failure), `failAt` picks the transport failure the gateway catches (if
any), and `saveOk` tells whether the `save_json` file write succeeds; a
failing write raises `OSError`, which nothing in the account body catches, so
the body ends in `Except.error` carrying the in-memory state at that point
(the cache entry is already assigned on line 155 before line 156 writes). -/
def process_account (fetch : String → Option Tweet) (failAt : Option Nat)
    (saveOk : Cache → Bool) (channel : Option String)
    (cache : Cache) (acc : String) : Except AccountOutcome AccountOutcome :=
  match fetch acc with
  | none => .ok ⟨cache, [], []⟩
  | some t =>
    let tid := tidStr t
    if cacheGet cache acc == some tid then .ok ⟨cache, [], []⟩
    else
      let events := attempted failAt (delivery_calls channel acc t)
      let cache2 := cacheSet cache acc tid
      if saveOk cache2 then .ok ⟨cache2, events, [cache2]⟩
      else .error ⟨cache2, events, []⟩

/-- Outcome of one iteration of the `while True` loop: final cache, traces,
the accounts whose body was entered, and whether the cycle-level `except`
(lines 157-158) caught an exception. -/
structure CycleOutcome where
  cache : Cache
  events : List SendEvent
  saves : List Cache
  processed : List String
  aborted : Bool
deriving DecidableEq

/-- Lines 138-156: the `for acc in accounts` loop.  An exception in one
account body propagates out of the `for`, so the remaining accounts are not
reached; it is then caught by the `except` on line 157, so the cycle itself
returns. -/
def processAccounts (fetch : String → Option Tweet) (dfail : String → Option Nat)
    (saveOk : Cache → Bool) (channel : Option String) :
    List String → Cache → CycleOutcome
  | [], cache => ⟨cache, [], [], [], false⟩
  | acc :: rest, cache =>
    match process_account fetch (dfail acc) saveOk channel cache acc with
    | .ok o =>
      let r := processAccounts fetch dfail saveOk channel rest o.cache
      ⟨r.cache, o.events ++ r.events, o.saves ++ r.saves, acc :: r.processed, r.aborted⟩
    | .error o => ⟨o.cache, o.events, o.saves, [acc], true⟩

/-- Line 136: `list(dict.fromkeys(...))` — first-occurrence deduplication
preserving order. -/
def dedupKeys (seen : List String) : List String → List String
  | [] => []
  | x :: xs =>
    if seen.contains x then dedupKeys seen xs
    else x :: dedupKeys (x :: seen) xs

/-- Lines 132-158: one iteration of `check_for_new_tweets` up to the sleep:
when paused nothing is fetched or sent; otherwise the deduplicated account
list is processed in order on the configured channel (read on line 150
without any is-set check). -/
def check_cycle (fetch : String → Option Tweet) (dfail : String → Option Nat)
    (saveOk : Cache → Bool) (cfg : Config) (cache : Cache) : CycleOutcome :=
  if cfg.paused then ⟨cache, [], [], [], false⟩
  else
    processAccounts fetch dfail saveOk cfg.telegram_channel
      (dedupKeys [] cfg.twitter_accounts) cache

/-- Lines 130-159: `n` iterations of the `while True` loop, starting at cycle
index `i`; the oracles may differ between cycles.  Every iteration returns a
`CycleOutcome` because the cycle-level `except Exception` catches whatever
the cycle raised, and the loop condition is the constant `True`. -/
def check_for_new_tweets (fetch : Nat → String → Option Tweet)
    (dfail : Nat → String → Option Nat) (saveOk : Nat → Cache → Bool)
    (cfg : Config) : Nat → Nat → Cache → List CycleOutcome
  | 0, _, _ => []
  | Nat.succ n, i, cache =>
    let r := check_cycle (fetch i) (dfail i) (saveOk i) cfg cache
    r :: check_for_new_tweets fetch dfail saveOk cfg n (i + 1) r.cache

/-! ### Command handlers (lines 180-245) -/

/-- Lines 184-186: prepend "@" unless the argument already starts with it. -/
def normalize_account (a : String) : String :=
  if strStartsWith a "@" then a else "@" ++ a

/-- Lines 180-192: `/add` — usage message without an argument; otherwise the
normalized account is looked up in the watch-list, a duplicate leaves the
config unchanged, and a new account is appended and persisted. -/
def cmd_add (cfg : Config) (args : List String) : Config × String :=
  match args with
  | [] => (cfg, "Usage: /add @username")
  | a :: _ =>
    let acc := normalize_account a
    if cfg.twitter_accounts.contains acc then (cfg, acc ++ " already tracked")
    else
      ({ cfg with twitter_accounts := cfg.twitter_accounts ++ [acc] },
       "✅ Added " ++ acc)

/-- Lines 225-235: `/setinterval` — usage message without an argument; a
`ValueError` from `int()` answers "Invalid number" with the config untouched;
otherwise `max(1, n)` is stored and the reply echoes the raw `n`. -/
def cmd_setinterval (cfg : Config) (args : List String) : Config × String :=
  match args with
  | [] => (cfg, "Usage: /setinterval N (minutes)")
  | a :: _ =>
    match parsePyInt a with
    | none => (cfg, "Invalid number")
    | some n =>
      ({ cfg with interval_minutes := max 1 n },
       "✅ Interval set to " ++ toString n ++ " minutes")

/-! ### Spec-side definitions for refinement claims -/

/-- Following the spec wording (section 4.2): resolve a URL by taking the
first non-empty value among the candidate fields, in priority order. -/
def firstTruthyUrl : List (Option String) → Option String
  | [] => none
  | f :: rest => if hasTruthy f then f else firstTruthyUrl rest

/-! ### Helper lemmas -/

theorem cacheGet_cacheSet_self (c : Cache) (a v : String) :
    cacheGet (cacheSet c a v) a = some v := by
  induction c with
  | nil => simp [cacheGet, cacheSet]
  | cons kv rest ih =>
    obtain ⟨k, w⟩ := kv
    by_cases h : k = a
    · simp [cacheGet, cacheSet, h]
    · simp [cacheGet, cacheSet, h, ih]

theorem process_account_skip (fetch : String → Option Tweet) (failAt : Option Nat)
    (saveOk : Cache → Bool) (ch : Option String) (cache : Cache) (acc : String)
    (t : Tweet) (hf : fetch acc = some t)
    (hold : cacheGet cache acc = some (tidStr t)) :
    process_account fetch failAt saveOk ch cache acc = .ok ⟨cache, [], []⟩ := by
  simp [process_account, hf, hold]

theorem process_account_new (fetch : String → Option Tweet) (failAt : Option Nat)
    (saveOk : Cache → Bool) (ch : Option String) (cache : Cache) (acc : String)
    (t : Tweet) (hf : fetch acc = some t)
    (hnew : cacheGet cache acc ≠ some (tidStr t))
    (hsave : saveOk (cacheSet cache acc (tidStr t)) = true) :
    process_account fetch failAt saveOk ch cache acc =
      .ok ⟨cacheSet cache acc (tidStr t),
           attempted failAt (delivery_calls ch acc t),
           [cacheSet cache acc (tidStr t)]⟩ := by
  have hb : (cacheGet cache acc == some (tidStr t)) = false :=
    beq_eq_false_iff_ne.mpr hnew
  simp [process_account, hf, hb, hsave]

theorem mediaType_photo_or_video (m : MediaElem) (url : String) :
    mediaType m url = "photo" ∨ mediaType m url = "video" := by
  simp only [mediaType]
  cases hasVideoExt url <;> cases explicit_video_signal m <;> simp

theorem extractMediaLoop_types (ms : List MediaElem) :
    ∀ d ∈ extractMediaLoop ms, d.mtype = "photo" ∨ d.mtype = "video" := by
  induction ms with
  | nil => intro d hd; simp [extractMediaLoop] at hd
  | cons m rest ih =>
    intro d hd
    simp only [extractMediaLoop] at hd
    cases hr : resolveUrl m with
    | none => rw [hr] at hd; exact ih d hd
    | some url =>
      rw [hr] at hd
      rcases List.mem_cons.mp hd with h | h
      · rw [h]; exact mediaType_photo_or_video m url
      · exact ih d h

theorem extract_media_types (tm : Option (List MediaElem)) :
    ∀ d ∈ extract_media_from_tweet tm, d.mtype = "photo" ∨ d.mtype = "video" := by
  cases tm with
  | none => intro d hd; simp [extract_media_from_tweet] at hd
  | some ms => exact extractMediaLoop_types ms

theorem attempted_ne_nil (failAt : Option Nat) (calls : List SendEvent)
    (h : calls ≠ []) : attempted failAt calls ≠ [] := by
  cases failAt with
  | none => simpa [attempted] using h
  | some k =>
    cases calls with
    | nil => exact absurd rfl h
    | cons c cs => simp [attempted, List.take_succ_cons]

theorem buildMediaGroup_cons (p : String) (ps : List String) (caption : String) :
    buildMediaGroup (p :: ps) caption =
      (p, some caption) :: ps.map (fun u => (u, (none : Option String))) := by
  simp [buildMediaGroup]

theorem send_media_ne_nil (ch : Option String) (media : List MediaDict)
    (caption : String) (hne : media ≠ [])
    (hty : ∀ d ∈ media, d.mtype = "photo" ∨ d.mtype = "video") :
    send_media ch media caption ≠ [] := by
  cases media with
  | nil => exact absurd rfl hne
  | cons d rest =>
    simp only [send_media, List.isEmpty_cons, Bool.false_eq_true, if_false]
    intro hcontra
    rw [List.append_assoc, List.append_eq_nil] at hcontra
    obtain ⟨hp, hvt⟩ := hcontra
    rw [List.append_eq_nil] at hvt
    obtain ⟨hv, _⟩ := hvt
    rcases hty d (List.mem_cons_self d rest) with hph | hvd
    · have hmem : d ∈ (d :: rest).filter (fun m => m.mtype == "photo") := by
        simp [List.mem_filter, hph]
      have : ((d :: rest).filter (fun m => m.mtype == "photo")).map
          (fun m => m.url) ≠ [] := by
        intro hnil
        rw [List.map_eq_nil_iff] at hnil
        rw [hnil] at hmem
        exact List.not_mem_nil d hmem
      rcases hps : ((d :: rest).filter (fun m => m.mtype == "photo")).map
          (fun m => m.url) with _ | ⟨p, _ | ⟨q, qs⟩⟩
      · exact this hps
      · rw [hps] at hp; exact List.cons_ne_nil _ _ hp
      · rw [hps] at hp; exact List.cons_ne_nil _ _ hp
    · have hmem : d ∈ (d :: rest).filter (fun m => m.mtype == "video") := by
        simp [List.mem_filter, hvd]
      have hvne : ((d :: rest).filter (fun m => m.mtype == "video")).map
          (fun m => m.url) ≠ [] := by
        intro hnil
        rw [List.map_eq_nil_iff] at hnil
        rw [hnil] at hmem
        exact List.not_mem_nil d hmem
      rw [List.map_eq_nil_iff] at hv
      exact hvne hv

theorem delivery_calls_ne_nil (ch : Option String) (acc : String) (t : Tweet) :
    delivery_calls ch acc t ≠ [] := by
  simp only [delivery_calls]
  cases hm : (extract_media_from_tweet t.media).isEmpty with
  | true => simp [send_text]
  | false =>
    simp only [Bool.false_eq_true, if_false]
    have hne : extract_media_from_tweet t.media ≠ [] := by
      intro hnil; rw [hnil] at hm; simp at hm
    exact send_media_ne_nil ch (extract_media_from_tweet t.media) _ hne
      (extract_media_types t.media)

theorem resolveUrl_eq_firstTruthy (m : MediaElem) :
    resolveUrl m = firstTruthyUrl [m.fullUrl, m.previewUrl, m.url] := by
  simp only [resolveUrl, firstTruthyUrl]

theorem hasVideoExt_eq (url : String) :
    hasVideoExt url =
      (strEndsWith (strToLower url) ".mp4" || strEndsWith (strToLower url) ".mov" ||
        strEndsWith (strToLower url) ".webm") := by
  simp [hasVideoExt, List.any, Bool.or_assoc]

theorem processAccounts_processed_take (fetch : String → Option Tweet)
    (dfail : String → Option Nat) (saveOk : Cache → Bool) (ch : Option String) :
    ∀ (accs : List String) (cache : Cache),
      ∃ k, k ≤ accs.length ∧
        (processAccounts fetch dfail saveOk ch accs cache).processed = accs.take k ∧
        ((processAccounts fetch dfail saveOk ch accs cache).aborted = false →
          k = accs.length) := by
  intro accs
  induction accs with
  | nil => intro cache; exact ⟨0, by simp [processAccounts]⟩
  | cons acc rest ih =>
    intro cache
    cases hpa : process_account fetch (dfail acc) saveOk ch cache acc with
    | ok o =>
      obtain ⟨k, hk, hproc, habort⟩ := ih o.cache
      refine ⟨k + 1, by simpa using Nat.succ_le_succ hk, ?_, ?_⟩
      · simp [processAccounts, hpa, hproc, List.take_succ_cons]
      · intro hab
        simp only [processAccounts, hpa] at hab
        have := habort hab
        simp [this]
    | error o =>
      refine ⟨1, by simp, ?_, ?_⟩
      · simp [processAccounts, hpa, List.take_succ_cons]
      · intro hab
        simp [processAccounts, hpa] at hab

theorem check_for_new_tweets_length (fetch : Nat → String → Option Tweet)
    (dfail : Nat → String → Option Nat) (saveOk : Nat → Cache → Bool)
    (cfg : Config) :
    ∀ (n i : Nat) (cache : Cache),
      (check_for_new_tweets fetch dfail saveOk cfg n i cache).length = n := by
  intro n
  induction n with
  | zero => intro i cache; rfl
  | succ n ih =>
    intro i cache
    simp [check_for_new_tweets, ih]

/-! ### Claim theorems -/

/-- Claim C1: for every poll cycle and every watched account whose fetched
latest tweet id differs from the stored marker, after the delivery attempt
completes — whether the underlying send succeeds (`dfail acc = none`) or the
gateway catches a transport failure (`dfail acc = some k`) — the marker map
entry for that account equals the new tweet id, the updated cache is written
by `save_json` within the account body, and the remaining accounts of the
cycle are processed against that updated cache. -/
theorem marker_advances_after_delivery_attempt
    (fetch : String → Option Tweet) (dfail : String → Option Nat)
    (saveOk : Cache → Bool) (ch : Option String) (cache : Cache)
    (acc : String) (rest : List String) (t : Tweet)
    (hf : fetch acc = some t)
    (hnew : cacheGet cache acc ≠ some (tidStr t))
    (hsave : saveOk (cacheSet cache acc (tidStr t)) = true) :
    process_account fetch (dfail acc) saveOk ch cache acc =
      .ok ⟨cacheSet cache acc (tidStr t),
           attempted (dfail acc) (delivery_calls ch acc t),
           [cacheSet cache acc (tidStr t)]⟩ ∧
    cacheGet (cacheSet cache acc (tidStr t)) acc = some (tidStr t) ∧
    processAccounts fetch dfail saveOk ch (acc :: rest) cache =
      ⟨(processAccounts fetch dfail saveOk ch rest (cacheSet cache acc (tidStr t))).cache,
       attempted (dfail acc) (delivery_calls ch acc t) ++
         (processAccounts fetch dfail saveOk ch rest (cacheSet cache acc (tidStr t))).events,
       cacheSet cache acc (tidStr t) ::
         (processAccounts fetch dfail saveOk ch rest (cacheSet cache acc (tidStr t))).saves,
       acc :: (processAccounts fetch dfail saveOk ch rest (cacheSet cache acc (tidStr t))).processed,
       (processAccounts fetch dfail saveOk ch rest (cacheSet cache acc (tidStr t))).aborted⟩ := by
  have hpa := process_account_new fetch (dfail acc) saveOk ch cache acc t hf hnew hsave
  refine ⟨hpa, cacheGet_cacheSet_self cache acc (tidStr t), ?_⟩
  simp [processAccounts, hpa]

/-- Witness for C1 at a concrete input with a caught transport failure
(`failAt = some 0`): the marker still advances and is saved. -/
theorem marker_advances_after_delivery_attempt_witness :
    cacheGet [] "@a" ≠ some (tidStr ⟨some 5, "hi", none⟩) ∧
    process_account (fun _ => some ⟨some 5, "hi", none⟩) (some 0) (fun _ => true)
        (some "@chan") [] "@a" =
      .ok ⟨cacheSet [] "@a" (tidStr ⟨some 5, "hi", none⟩),
           attempted (some 0) (delivery_calls (some "@chan") "@a" ⟨some 5, "hi", none⟩),
           [cacheSet [] "@a" (tidStr ⟨some 5, "hi", none⟩)]⟩ :=
  ⟨by decide,
   (marker_advances_after_delivery_attempt (fun _ => some ⟨some 5, "hi", none⟩)
     (fun _ => some 0) (fun _ => true) (some "@chan") [] "@a" []
     ⟨some 5, "hi", none⟩ rfl (by decide) rfl).1⟩

/-- Claim C2 counterexample: with two watched accounts and a `save_json`
write that raises while the first account is being handled, the exception is
caught by the cycle-level `except` (aborted = true) but the second watched
account is not processed in that cycle — refuting that the remaining
accounts of the same cycle are still processed.  The loop itself does
continue: two requested iterations both complete. -/
theorem cycle_abort_counterexample :
    ("@b" ∈ (⟨["@a", "@b"], 3, some "@chan", false⟩ : Config).twitter_accounts) ∧
    (check_cycle (fun _ => some ⟨some 1, "hi", none⟩) (fun _ => none) (fun _ => false)
        ⟨["@a", "@b"], 3, some "@chan", false⟩ []).aborted = true ∧
    (check_cycle (fun _ => some ⟨some 1, "hi", none⟩) (fun _ => none) (fun _ => false)
        ⟨["@a", "@b"], 3, some "@chan", false⟩ []).processed = ["@a"] ∧
    "@b" ∉ (check_cycle (fun _ => some ⟨some 1, "hi", none⟩) (fun _ => none) (fun _ => false)
        ⟨["@a", "@b"], 3, some "@chan", false⟩ []).processed ∧
    (check_for_new_tweets (fun _ _ => some ⟨some 1, "hi", none⟩) (fun _ _ => none)
        (fun _ _ => false) ⟨["@a", "@b"], 3, some "@chan", false⟩ 2 0 []).length = 2 := by
  refine ⟨?_, ?_, ?_, ?_, ?_⟩ <;> decide

/-- Claim C2 as amended: an exception raised while processing one account is
caught at the cycle level, so the loop never terminates (every requested
iteration of the while loop completes), but within the failing cycle the
accounts after the failing one are skipped: the processed accounts always
form a prefix of the account list, and a full cycle (no exception) processes
them all. -/
theorem exceptions_caught_at_cycle_level
    (fetch : String → Option Tweet) (dfail : String → Option Nat)
    (saveOk : Cache → Bool) (ch : Option String) (accs : List String) (cache : Cache)
    (lfetch : Nat → String → Option Tweet) (ldfail : Nat → String → Option Nat)
    (lsaveOk : Nat → Cache → Bool) (cfg : Config) (n i : Nat) (lcache : Cache) :
    (∃ k, k ≤ accs.length ∧
      (processAccounts fetch dfail saveOk ch accs cache).processed = accs.take k ∧
      ((processAccounts fetch dfail saveOk ch accs cache).aborted = false →
        k = accs.length)) ∧
    (check_for_new_tweets lfetch ldfail lsaveOk cfg n i lcache).length = n :=
  ⟨processAccounts_processed_take fetch dfail saveOk ch accs cache,
   check_for_new_tweets_length lfetch ldfail lsaveOk cfg n i lcache⟩

/-- Witness for C2 as amended, at concrete inputs. -/
theorem exceptions_caught_at_cycle_level_witness :
    (∃ k, k ≤ (["@a", "@b"] : List String).length ∧
      (processAccounts (fun _ => some ⟨some 1, "hi", none⟩) (fun _ => none)
          (fun _ => false) (some "@chan") ["@a", "@b"] []).processed =
        (["@a", "@b"] : List String).take k ∧
      ((processAccounts (fun _ => some ⟨some 1, "hi", none⟩) (fun _ => none)
          (fun _ => false) (some "@chan") ["@a", "@b"] []).aborted = false →
        k = (["@a", "@b"] : List String).length)) ∧
    (check_for_new_tweets (fun _ _ => some ⟨some 1, "hi", none⟩) (fun _ _ => none)
        (fun _ _ => false) ⟨["@a", "@b"], 3, some "@chan", false⟩ 2 0 []).length = 2 :=
  exceptions_caught_at_cycle_level (fun _ => some ⟨some 1, "hi", none⟩) (fun _ => none)
    (fun _ => false) (some "@chan") ["@a", "@b"] []
    (fun _ _ => some ⟨some 1, "hi", none⟩) (fun _ _ => none) (fun _ _ => false)
    ⟨["@a", "@b"], 3, some "@chan", false⟩ 2 0 []

/-- Claim C10: delivery for an account is triggered exactly when the fetched
latest tweet id, compared as a string, differs from the stored marker.  A
matching marker produces no Bot API call and leaves the cache untouched; any
differing marker — including the first run, where no marker is stored —
produces a non-empty trace of delivery calls and records the new id. -/
theorem novelty_by_string_inequality
    (fetch : String → Option Tweet) (failAt : Option Nat) (saveOk : Cache → Bool)
    (ch : Option String) (cache : Cache) (acc : String) (t : Tweet)
    (hf : fetch acc = some t)
    (hsave : saveOk (cacheSet cache acc (tidStr t)) = true) :
    (cacheGet cache acc = some (tidStr t) →
      process_account fetch failAt saveOk ch cache acc = .ok ⟨cache, [], []⟩) ∧
    (cacheGet cache acc ≠ some (tidStr t) →
      attempted failAt (delivery_calls ch acc t) ≠ [] ∧
      process_account fetch failAt saveOk ch cache acc =
        .ok ⟨cacheSet cache acc (tidStr t),
             attempted failAt (delivery_calls ch acc t),
             [cacheSet cache acc (tidStr t)]⟩) ∧
    (cacheGet cache acc = none →
      process_account fetch failAt saveOk ch cache acc =
        .ok ⟨cacheSet cache acc (tidStr t),
             attempted failAt (delivery_calls ch acc t),
             [cacheSet cache acc (tidStr t)]⟩) := by
  refine ⟨fun hold => process_account_skip fetch failAt saveOk ch cache acc t hf hold,
    fun hnew => ⟨attempted_ne_nil failAt _ (delivery_calls_ne_nil ch acc t),
      process_account_new fetch failAt saveOk ch cache acc t hf hnew hsave⟩,
    fun hnone => process_account_new fetch failAt saveOk ch cache acc t hf
      (by rw [hnone]; exact fun hc => Option.noConfusion hc) hsave⟩

/-- Witness for C10 at a concrete input where the stored marker "100" is
numerically newer than the fetched id "99": string inequality still triggers
delivery. -/
theorem novelty_by_string_inequality_witness :
    cacheGet [("@a", "100")] "@a" ≠ some (tidStr ⟨some 99, "hi", none⟩) ∧
    (attempted none (delivery_calls (some "@chan") "@a" ⟨some 99, "hi", none⟩) ≠ [] ∧
      process_account (fun _ => some ⟨some 99, "hi", none⟩) none (fun _ => true)
          (some "@chan") [("@a", "100")] "@a" =
        .ok ⟨cacheSet [("@a", "100")] "@a" (tidStr ⟨some 99, "hi", none⟩),
             attempted none (delivery_calls (some "@chan") "@a" ⟨some 99, "hi", none⟩),
             [cacheSet [("@a", "100")] "@a" (tidStr ⟨some 99, "hi", none⟩)]⟩) :=
  ⟨by decide,
   (novelty_by_string_inequality (fun _ => some ⟨some 99, "hi", none⟩) none
     (fun _ => true) (some "@chan") [("@a", "100")] "@a" ⟨some 99, "hi", none⟩
     rfl rfl).2.1 (by decide)⟩

/-- Claim C9 counterexample: with the destination channel unset
(`telegram_channel = none`), a new tweet still produces an attempted gateway
call — the loop (lines 150-154) passes the unset channel straight to
`send_text`, which issues `bot.send_message` with a `None` chat id — refuting
that no send to the gateway is attempted.  The condition is not fatal (the
cycle completes, aborted = false) and the marker still advances. -/
theorem unset_channel_send_attempted_counterexample :
    (⟨["@a"], 3, none, false⟩ : Config).telegram_channel = none ∧
    check_cycle (fun _ => some ⟨some 1, "hi", none⟩) (fun _ => none) (fun _ => true)
        ⟨["@a"], 3, none, false⟩ [] =
      ⟨[("@a", "1")], [SendEvent.sendMessage none "🧵 New tweet from @a:\n\nhi"],
       [[("@a", "1")]], ["@a"], false⟩ ∧
    (check_cycle (fun _ => some ⟨some 1, "hi", none⟩) (fun _ => none) (fun _ => true)
        ⟨["@a"], 3, none, false⟩ []).events ≠ [] := by
  refine ⟨rfl, by decide, by decide⟩

/-- Claim C9 as amended: the helper `send_to_channel_text_only` does skip —
it issues no gateway call while the channel is unset (or empty) — but the
delivery path of the poll loop never calls it: with the channel unset the
loop still attempts gateway calls carrying channel `None`, and the condition
is not fatal (the account body completes and the marker advances, because
`send_text` and `send_media` catch their own transport failures). -/
theorem unset_channel_behavior (text : String)
    (fetch : String → Option Tweet) (failAt : Option Nat) (saveOk : Cache → Bool)
    (cache : Cache) (acc : String) (t : Tweet)
    (hf : fetch acc = some t)
    (hnew : cacheGet cache acc ≠ some (tidStr t))
    (hsave : saveOk (cacheSet cache acc (tidStr t)) = true) :
    send_to_channel_text_only none text = [] ∧
    send_to_channel_text_only (some "") text = [] ∧
    attempted failAt (delivery_calls none acc t) ≠ [] ∧
    process_account fetch failAt saveOk none cache acc =
      .ok ⟨cacheSet cache acc (tidStr t),
           attempted failAt (delivery_calls none acc t),
           [cacheSet cache acc (tidStr t)]⟩ :=
  ⟨rfl, rfl, attempted_ne_nil failAt _ (delivery_calls_ne_nil none acc t),
   process_account_new fetch failAt saveOk none cache acc t hf hnew hsave⟩

/-- Witness for C9 as amended, at a concrete input. -/
theorem unset_channel_behavior_witness :
    send_to_channel_text_only none "msg" = [] ∧
    send_to_channel_text_only (some "") "msg" = [] ∧
    attempted none (delivery_calls none "@a" ⟨some 1, "hi", none⟩) ≠ [] ∧
    process_account (fun _ => some ⟨some 1, "hi", none⟩) none (fun _ => true)
        none [] "@a" =
      .ok ⟨cacheSet [] "@a" (tidStr ⟨some 1, "hi", none⟩),
           attempted none (delivery_calls none "@a" ⟨some 1, "hi", none⟩),
           [cacheSet [] "@a" (tidStr ⟨some 1, "hi", none⟩)]⟩ :=
  unset_channel_behavior "msg" (fun _ => some ⟨some 1, "hi", none⟩) none
    (fun _ => true) [] "@a" ⟨some 1, "hi", none⟩ rfl (by decide) rfl

/-- Claim C8 counterexample: the delivery caption built for account "@a" and
text "hi" is the string using the actual header of line 148, which differs
from the claimed template "New post from {account}:\n\n{text}". -/
theorem caption_format_counterexample :
    delivery_calls (some "@chan") "@a" ⟨some 1, "hi", none⟩ =
      [SendEvent.sendMessage (some "@chan") "🧵 New tweet from @a:\n\nhi"] ∧
    "🧵 New tweet from @a:\n\nhi" ≠ "New post from @a:\n\nhi" :=
  ⟨by decide, by decide⟩

/-- Claim C8 as amended: for a tweet with no extractable media, the delivery
caption equals "🧵 New tweet from {account}:\n\n{text}" when the stripped
text is non-empty, and "🧵 New tweet from {account}" — the header without
the colon, the blank line and the text — when the stripped text is empty. -/
theorem caption_format (ch : Option String) (acc : String) (t : Tweet)
    (hm : extract_media_from_tweet t.media = []) :
    (strTrim t.content ≠ "" →
      delivery_calls ch acc t =
        [SendEvent.sendMessage ch
          ("🧵 New tweet from " ++ acc ++ ":\n\n" ++ strTrim t.content)]) ∧
    (strTrim t.content = "" →
      delivery_calls ch acc t =
        [SendEvent.sendMessage ch ("🧵 New tweet from " ++ acc)]) := by
  constructor
  · intro hne
    have hb : (strTrim t.content == "") = false := beq_eq_false_iff_ne.mpr hne
    simp [delivery_calls, tweet_caption, hm, hb, send_text]
  · intro he
    simp [delivery_calls, tweet_caption, hm, he, send_text]

/-- Witness for C8 as amended, at concrete inputs for both cases. -/
theorem caption_format_witness :
    (extract_media_from_tweet (Tweet.media ⟨some 1, "hi", none⟩) = [] ∧
      delivery_calls (some "@chan") "@b" ⟨some 1, "hi", none⟩ =
        [SendEvent.sendMessage (some "@chan")
          ("🧵 New tweet from " ++ "@b" ++ ":\n\n" ++ strTrim "hi")]) ∧
    (strTrim "  " = "" ∧
      delivery_calls (some "@chan") "@b" ⟨some 2, "  ", none⟩ =
        [SendEvent.sendMessage (some "@chan") ("🧵 New tweet from " ++ "@b")]) :=
  ⟨⟨rfl, (caption_format (some "@chan") "@b" ⟨some 1, "hi", none⟩ rfl).1 (by decide)⟩,
   ⟨rfl, (caption_format (some "@chan") "@b" ⟨some 2, "  ", none⟩ rfl).2 (by decide)⟩⟩

/-- Claim C3: the media normalizer returns one entry per attached media
element whose URL resolves, in source order (a `filterMap`); an element's URL
is the first non-empty value among the full-resolution field, the preview
field and the generic url field; elements with no resolvable URL are
dropped; a missing media attribute yields the empty list. -/
theorem media_normalizer_resolution_and_order (ms : List MediaElem) :
    extract_media_from_tweet none = [] ∧
    extract_media_from_tweet (some ms) =
      ms.filterMap (fun m =>
        (firstTruthyUrl [m.fullUrl, m.previewUrl, m.url]).map
          (fun u => (⟨mediaType m u, u⟩ : MediaDict))) := by
  have key : ∀ ns : List MediaElem, extractMediaLoop ns =
      ns.filterMap (fun m =>
        (resolveUrl m).map (fun u => (⟨mediaType m u, u⟩ : MediaDict))) := by
    intro ns
    induction ns with
    | nil => rfl
    | cons m rest ih =>
      simp only [extractMediaLoop, List.filterMap_cons]
      cases hr : resolveUrl m with
      | none => simp [ih]
      | some u => simp [ih]
  refine ⟨rfl, ?_⟩
  show extractMediaLoop ms = _
  rw [key ms]
  simp only [resolveUrl_eq_firstTruthy]

/-- Claim C4: a media element whose URL resolves is classified "video" when
the explicit type signal fires; otherwise it is "video" exactly when the
lowercased URL ends in .mp4, .mov or .webm, and "photo" in every other
case. -/
theorem media_type_classification (m : MediaElem) (url : String)
    (h : resolveUrl m = some url) :
    (explicit_video_signal m = true → mediaType m url = "video") ∧
    (explicit_video_signal m = false →
      (mediaType m url = "video" ↔
        (strEndsWith (strToLower url) ".mp4" || strEndsWith (strToLower url) ".mov" ||
          strEndsWith (strToLower url) ".webm") = true) ∧
      ((strEndsWith (strToLower url) ".mp4" || strEndsWith (strToLower url) ".mov" ||
          strEndsWith (strToLower url) ".webm") = false → mediaType m url = "photo")) := by
  simp only [← hasVideoExt_eq]
  constructor
  · intro he
    cases hv : hasVideoExt url <;> simp [mediaType, he, hv]
  · intro he
    constructor
    · cases hv : hasVideoExt url <;> simp [mediaType, he, hv]
    · intro hv
      simp [mediaType, he, hv]

/-- Witness for C4 at a concrete input: no explicit signal, ".mp4" ending
forces "video". -/
theorem media_type_classification_witness :
    resolveUrl (⟨some "x.MP4", none, none, "Photo", ""⟩ : MediaElem) = some "x.MP4" ∧
    explicit_video_signal (⟨some "x.MP4", none, none, "Photo", ""⟩ : MediaElem) = false ∧
    mediaType (⟨some "x.MP4", none, none, "Photo", ""⟩ : MediaElem) "x.MP4" = "video" :=
  ⟨by decide, by decide,
   ((media_type_classification (⟨some "x.MP4", none, none, "Photo", ""⟩ : MediaElem)
     "x.MP4" (by decide)).2 (by decide)).1.mpr (by decide)⟩

/-- Claim C6: `/setinterval` with a non-numeric argument leaves the config
(including the stored interval) unchanged and answers "Invalid number"; an
argument parsing to an integer below 1 stores the clamped minimum of 1. -/
theorem setinterval_validation_and_clamp (cfg : Config) (a : String)
    (rest : List String) :
    (parsePyInt a = none → cmd_setinterval cfg (a :: rest) = (cfg, "Invalid number")) ∧
    (∀ n : Int, parsePyInt a = some n → n < 1 →
      (cmd_setinterval cfg (a :: rest)).1 = { cfg with interval_minutes := 1 } ∧
      (cmd_setinterval cfg (a :: rest)).2 =
        "✅ Interval set to " ++ toString n ++ " minutes") := by
  constructor
  · intro hn
    simp [cmd_setinterval, hn]
  · intro n hn hlt
    have hmax : max (1 : Int) n = 1 := max_eq_left (le_of_lt hlt)
    simp [cmd_setinterval, hn, hmax]

/-- Witness for C6: "abc" is rejected with the config unchanged; "0" is
clamped to 1. -/
theorem setinterval_validation_and_clamp_witness :
    (parsePyInt "abc" = none ∧
      cmd_setinterval (⟨["@x"], 3, some "@chan", false⟩ : Config) ["abc"] =
        ((⟨["@x"], 3, some "@chan", false⟩ : Config), "Invalid number")) ∧
    (parsePyInt "0" = some 0 ∧ (0 : Int) < 1 ∧
      (cmd_setinterval (⟨["@x"], 3, some "@chan", false⟩ : Config) ["0"]).1 =
        (⟨["@x"], 1, some "@chan", false⟩ : Config)) :=
  ⟨⟨by decide,
    (setinterval_validation_and_clamp (⟨["@x"], 3, some "@chan", false⟩ : Config)
      "abc" []).1 (by decide)⟩,
   ⟨by decide, by decide,
    ((setinterval_validation_and_clamp (⟨["@x"], 3, some "@chan", false⟩ : Config)
      "0" []).2 0 (by decide) (by decide)).1⟩⟩

/-- Claim C7: `/add foo` and `/add @foo` refer to the same watched entity —
both normalize to the leading-@ canonical form before the membership check;
the first add appends the canonical account; a second add of either spelling
leaves the config unchanged and acknowledges the account as already
tracked. -/
theorem add_normalizes_and_rejects_duplicates (cfg : Config) (s : String)
    (hs : strStartsWith s "@" = false)
    (hnotin : cfg.twitter_accounts.contains ("@" ++ s) = false) :
    normalize_account s = "@" ++ s ∧
    normalize_account ("@" ++ s) = "@" ++ s ∧
    (cmd_add cfg [s]).1.twitter_accounts = cfg.twitter_accounts ++ ["@" ++ s] ∧
    (∀ u, normalize_account u = "@" ++ s →
      cmd_add (cmd_add cfg [s]).1 [u] =
        ((cmd_add cfg [s]).1, "@" ++ s ++ " already tracked")) := by
  have h1 : normalize_account s = "@" ++ s := by
    simp [normalize_account, hs]
  have h2 : normalize_account ("@" ++ s) = "@" ++ s := rfl
  have hnotin2 : ("@" ++ s) ∉ cfg.twitter_accounts := by simpa using hnotin
  have h3 : (cmd_add cfg [s]).1.twitter_accounts = cfg.twitter_accounts ++ ["@" ++ s] := by
    simp [cmd_add, h1, hnotin2]
  refine ⟨h1, h2, h3, ?_⟩
  intro u hu
  have hc : ("@" ++ s) ∈ ((cmd_add cfg [s]).1).twitter_accounts := by
    rw [h3]
    exact List.mem_append_right _ (List.mem_singleton_self _)
  generalize hcfg1 : (cmd_add cfg [s]).1 = cfg1 at hc ⊢
  simp [cmd_add, hu, hc]

/-- Witness for C7: add "foo" to an empty watch-list, then add "@foo". -/
theorem add_normalizes_and_rejects_duplicates_witness :
    strStartsWith "foo" "@" = false ∧
    (⟨[], 3, none, false⟩ : Config).twitter_accounts.contains ("@" ++ "foo") = false ∧
    (cmd_add (⟨[], 3, none, false⟩ : Config) ["foo"]).1.twitter_accounts =
      (⟨[], 3, none, false⟩ : Config).twitter_accounts ++ ["@" ++ "foo"] ∧
    cmd_add (cmd_add (⟨[], 3, none, false⟩ : Config) ["foo"]).1 ["@foo"] =
      ((cmd_add (⟨[], 3, none, false⟩ : Config) ["foo"]).1,
       "@" ++ "foo" ++ " already tracked") :=
  ⟨by decide, by decide,
   (add_normalizes_and_rejects_duplicates (⟨[], 3, none, false⟩ : Config) "foo"
     (by decide) (by decide)).2.2.1,
   (add_normalizes_and_rejects_duplicates (⟨[], 3, none, false⟩ : Config) "foo"
     (by decide) (by decide)).2.2.2 "@foo" (by decide)⟩

/-- Claim C5: for a delivery call with a non-empty media list, the call
sequence is exactly: the photo handling first (one single-photo send carrying
the caption for one photo, or one grouped send with the caption attached only
to the first item for several), then one individual uncaptioned send per
video, then — only when the list contains neither photos nor videos and the
caption is non-empty — the caption as a plain text message. -/
theorem send_media_grouping_order (ch : Option String) (media : List MediaDict)
    (caption : String) (h : media ≠ []) :
    send_media ch media caption =
      (match (media.filter (fun m => m.mtype == "photo")).map (fun m => m.url) with
       | [] => []
       | [p] => [SendEvent.sendPhoto ch p caption]
       | p :: q :: qs =>
         [SendEvent.sendMediaGroup ch
           ((p, some caption) :: (q :: qs).map (fun u => (u, (none : Option String))))])
      ++ (media.filter (fun m => m.mtype == "video")).map
          (fun m => SendEvent.sendVideo ch m.url)
      ++ (if (media.filter (fun m => m.mtype == "photo") = [] ∧
              media.filter (fun m => m.mtype == "video") = [] ∧ caption ≠ "")
          then [SendEvent.sendMessage ch caption] else []) := by
  cases media with
  | nil => exact absurd rfl h
  | cons d rest =>
    rcases hp : (d :: rest).filter (fun m => m.mtype == "photo") with _ | ⟨e, es⟩
    · rcases hv : (d :: rest).filter (fun m => m.mtype == "video") with _ | ⟨v, vs⟩
      · by_cases hc : caption = "" <;>
          simp [send_media, hp, hv, hc, send_text]
      · simp [send_media, hp, hv, send_text, List.map_map, Function.comp]
    · rcases es with _ | ⟨f, fs⟩
      · simp [send_media, hp, send_text, List.map_map, Function.comp]
      · simp [send_media, hp, send_text, List.map_map, Function.comp, buildMediaGroup_cons]

/-- Witness for C5: two photos and one video produce exactly one grouped
photo send (caption on the first item only) followed by one uncaptioned video
send. -/
theorem send_media_grouping_order_witness :
    ([⟨"photo", "p1"⟩, ⟨"photo", "p2"⟩, ⟨"video", "v1"⟩] : List MediaDict) ≠ [] ∧
    send_media (some "@c") [⟨"photo", "p1"⟩, ⟨"photo", "p2"⟩, ⟨"video", "v1"⟩] "cap" =
      [SendEvent.sendMediaGroup (some "@c") [("p1", some "cap"), ("p2", none)],
       SendEvent.sendVideo (some "@c") "v1"] :=
  ⟨by decide,
   send_media_grouping_order (some "@c")
     [⟨"photo", "p1"⟩, ⟨"photo", "p2"⟩, ⟨"video", "v1"⟩] "cap" (by decide)⟩
